import Mathlib

/-!
# Verification of the PMP ticket dashboard core logic

Shallow embedding of the time-window ticket filter and aggregation pipeline
implemented in `src/dashboard.py` and `src/app.py`.  Dates are modelled as in
CPython `datetime`: a calendar date `(year, month, day)` in the proleptic
Gregorian calendar, with `toOrdinal` mapping it to its day number (day 1 =
0001-01-01) and `weekday` giving Monday = 0 .. Sunday = 6.  The view-selection
code of `dashboard.py` (lines 75-92) goes through `date.isocalendar()` and
`datetime.strptime(f"{iso.year}-W{iso.week - 1}-1", "%G-W%V-%u")` for the
"Last Week" branch; both are embedded faithfully below, following the CPython
implementations (`datetime._isoweek1monday`, `date.isocalendar`,
`_strptime._calc_julian_from_V`).
-/

namespace PMP

/-- CPython `datetime._is_leap`: Gregorian leap-year test (`dashboard.py`
relies on it through `datetime`/`pandas` date arithmetic). -/
def isLeap (y : Int) : Bool :=
  y % 4 == 0 && (y % 100 != 0 || y % 400 == 0)

/-- CPython `_days_in_month` (via `_DAYS_IN_MONTH` table). -/
def daysInMonth (y m : Int) : Int :=
  if m = 2 then (if isLeap y then 29 else 28)
  else if m = 4 ∨ m = 6 ∨ m = 9 ∨ m = 11 then 30
  else 31

/-- CPython `_DAYS_BEFORE_MONTH` table (non-leap cumulative month lengths). -/
def daysBeforeMonthTable (m : Int) : Int :=
  if m = 1 then 0 else if m = 2 then 31 else if m = 3 then 59
  else if m = 4 then 90 else if m = 5 then 120 else if m = 6 then 151
  else if m = 7 then 181 else if m = 8 then 212 else if m = 9 then 243
  else if m = 10 then 273 else if m = 11 then 304 else 334

/-- CPython `_days_before_month`. -/
def daysBeforeMonth (y m : Int) : Int :=
  daysBeforeMonthTable m + (if 2 < m ∧ isLeap y then 1 else 0)

/-- CPython `_days_before_year`: number of days before January 1st of `y`. -/
def daysBeforeYear (y : Int) : Int :=
  365 * (y - 1) + (y - 1) / 4 - (y - 1) / 100 + (y - 1) / 400

/-- CPython `_ymd2ord` / `date.toordinal`: day 1 is 0001-01-01. -/
def toOrdinal (y m d : Int) : Int :=
  daysBeforeYear y + daysBeforeMonth y m + d

/-- CPython `date.weekday`: `(toordinal() + 6) % 7`, Monday = 0 .. Sunday = 6. -/
def weekday (o : Int) : Int :=
  (o + 6) % 7

/-- A valid `datetime.date`: CPython accepts years 1..9999 and checks the
month/day ranges against the month table. -/
def ValidDate (y m d : Int) : Prop :=
  1 ≤ y ∧ y ≤ 9999 ∧ 1 ≤ m ∧ m ≤ 12 ∧ 1 ≤ d ∧ d ≤ daysInMonth y m

instance (y m d : Int) : Decidable (ValidDate y m d) := by
  unfold ValidDate; infer_instance

/-- A parsed calendar date, as stored in the `Request Date` column after
`pd.to_datetime(..., errors="coerce")` succeeds and `.dt.normalize()`. -/
structure Date where
  year : Int
  month : Int
  day : Int
deriving DecidableEq, Repr

/-- Day-number of a parsed date; date comparisons in the pandas code compare
chronologically, i.e. by this ordinal. -/
def Date.toOrd (dt : Date) : Int :=
  toOrdinal dt.year dt.month dt.day

/-- CPython `datetime._isoweek1monday`: ordinal of the Monday starting ISO
week 1 of `y` (the week containing the first Thursday of the year). -/
def isoweek1monday (y : Int) : Int :=
  let firstday := toOrdinal y 1 1
  let firstweekday := (firstday + 6) % 7
  let week1monday := firstday - firstweekday
  if firstweekday > 3 then week1monday + 7 else week1monday

/-- CPython `date.isocalendar` on the date `(y, m, d)`: returns
`(iso_year, iso_week, iso_weekday)` with week in 1..53 and weekday in 1..7. -/
def isocalendar (y m d : Int) : Int × Int × Int :=
  let today := toOrdinal y m d
  let w1 := isoweek1monday y
  let week := (today - w1) / 7
  let day := (today - w1) % 7
  if week < 0 then
    let w1p := isoweek1monday (y - 1)
    (y - 1, (today - w1p) / 7 + 1, (today - w1p) % 7 + 1)
  else if week ≥ 52 ∧ today ≥ isoweek1monday (y + 1) then
    (y + 1, 1, day + 1)
  else
    (y, week + 1, day + 1)

/-- CPython `_strptime._calc_julian_from_V`: day-of-year (Julian day) of ISO
weekday `isoWeekday` of ISO week `isoWeek` of ISO year `isoYear`, moving to the
previous calendar year when the day falls before January 1st. -/
def calcJulianFromV (isoYear isoWeek isoWeekday : Int) : Int × Int :=
  let correction := (weekday (toOrdinal isoYear 1 4) + 1) + 3
  let ordinal := isoWeek * 7 + isoWeekday - correction
  if ordinal < 1 then
    (isoYear - 1, ordinal + toOrdinal isoYear 1 1 - toOrdinal (isoYear - 1) 1 1)
  else
    (isoYear, ordinal)

/-- CPython `datetime.strptime(f"{Y}-W{w}-{u}", "%G-W%V-%u")` reduced to its
result ordinal.  The `%G` directive is matched by the regex `\d\d\d\d` —
exactly four digits — so the call raises `ValueError` (modeled as `none`)
unless the unpadded ISO year prints as four digits, i.e. `1000 ≤ Y ≤ 9999`.
Otherwise `_strptime` computes `(year, julian) = _calc_julian_from_V(Y, w, u)`
and returns the date with ordinal `date(year, 1, 1).toordinal() + julian - 1`
(the `%V` regex accepts any single digit, so week `0` parses). -/
def strptimeGWVU (isoYear isoWeek isoWeekday : Int) : Option Int :=
  if 1000 ≤ isoYear ∧ isoYear ≤ 9999 then
    let yj := calcJulianFromV isoYear isoWeek isoWeekday
    some (toOrdinal yj.1 1 1 + yj.2 - 1)
  else
    none

/-- Lines 75-92 of `dashboard.py`: the window `(start_date, end_date)` (as
ordinals) computed from the sidebar `view` string and today's date `(y, m, d)`.
The "Last Week" branch propagates `strptime`'s `ValueError` as `none` (the
script would crash); every other branch always produces a window.  The `else`
branch of the source is reached by every string other than the first three
options, including "This Year". -/
def selectWindow (view : String) (y m d : Int) : Option (Int × Int) :=
  let today := toOrdinal y m d
  if view == "This Week" then
    let start := today - weekday today
    some (start, start + 6)
  else if view == "Last Week" then
    let iso := isocalendar y m d
    (strptimeGWVU iso.1 (iso.2.1 - 1) 1).map fun start => (start, start + 6)
  else if view == "This Month" then
    some (toOrdinal y m 1, today)
  else
    some (toOrdinal y 1 1, today)

/-! ## Ticket loader (`dashboard.py` `load_dashboard_data`, lines 33-48) -/

/-- Character class stripped by pandas `.str.strip()` (Python `str.strip`
whitespace). -/
def isSpaceChar (c : Char) : Bool :=
  c == ' ' || c == '\t' || c == '\n' || c == '\x0d' || c == '\x0b' || c == '\x0c'

/-- pandas `.str.strip()`: remove leading and trailing whitespace. -/
def stripStr (s : String) : String :=
  ⟨((s.data.dropWhile isSpaceChar).reverse.dropWhile isSpaceChar).reverse⟩

/-- One raw CSV row, keyed by the columns the dashboard reads. -/
structure RawRow where
  requestDate : String
  category : String
  status : String
  level : String
deriving DecidableEq, Repr

/-- A loaded ticket record: the `Request Date` column parsed to a calendar
date, the text columns carried through unchanged. -/
structure Ticket where
  requestDate : Date
  category : String
  status : String
  level : String
deriving DecidableEq, Repr

/-- Field-level normalization the loader applies to a row before parsing:
`df["Request Date"].astype(str).str.strip()` strips the date string; the
`Category`, `Status` and `L1/L2/L3` columns are not transformed. -/
def normalizeRow (r : RawRow) : RawRow :=
  { r with requestDate := stripStr r.requestDate }

/-- The call `pd.to_datetime(..., dayfirst=True, errors="coerce")` is an external
pandas collaborator; the loader is parametric in the parse function, with
`none` standing for `NaT` (empty or unparsable input). -/
def parseColumn (parse : String → Option Date) (rows : List RawRow) :
    List (Option Date × RawRow) :=
  rows.map fun r => (parse (normalizeRow r).requestDate, r)

/-- Step `df.dropna(subset=["Request Date"])`: rows whose date failed to parse are
dropped; the rest keep their relative order. -/
def dropNaDates (rows : List (Option Date × RawRow)) : List (Date × RawRow) :=
  rows.filterMap fun p => p.1.map fun dt => (dt, p.2)

/-- Step `df = df[df["Request Date"].dt.year == current_year]` (lines 44-45). -/
def filterCurrentYear (yr : Int) (rows : List (Date × RawRow)) :
    List (Date × RawRow) :=
  rows.filter fun p => p.1.year == yr

/-- Function `load_dashboard_data` (lines 33-48): parse the date column, drop rows with
unparsable dates, keep only the current calendar year, normalize to midnight
(a no-op in this date-level model). -/
def load_dashboard_data (parse : String → Option Date) (yr : Int)
    (rows : List RawRow) : List Ticket :=
  (filterCurrentYear yr (dropNaDates (parseColumn parse rows))).map
    fun p => { requestDate := p.1, category := p.2.category,
               status := p.2.status, level := p.2.level }

/-! ## Window filter -/

/-- Lines 94-97 of `dashboard.py`: `filtered_df`, keeping records whose calendar
date lies between `start_date` and `end_date`, both inclusive. -/
def filterWindow (recs : List Ticket) (startO endO : Int) : List Ticket :=
  recs.filter fun t =>
    decide (startO ≤ t.requestDate.toOrd) && decide (t.requestDate.toOrd ≤ endO)

/-- STEP 2/3 of `app.py`: the console script never drops `NaT` rows; the weekly
filter compares `Request_Date_Only` against the bounds, and any comparison
involving `NaT` is `False`, so unparsed rows are excluded there. -/
def appWeeklyFilter (rows : List (Option Int)) (startO endO : Int) :
    List (Option Int) :=
  rows.filter fun r =>
    match r with
    | none => false
    | some o => decide (startO ≤ o) && decide (o ≤ endO)

/-! ## Aggregation (`dashboard.py` lines 122-148 and 174-195)

pandas/numpy float arithmetic on the small count ratios is modelled exactly
over `ℚ`; `Series.round(0)` rounds half to even (numpy rounding), and Python
`int()` truncates (equal to the floor on these non-negative values). -/

/-- numpy/pandas `round` to 0 decimals: round half to even. -/
def roundHalfEven (q : ℚ) : Int :=
  let f := ⌊q⌋
  let r := q - f
  if r < 1 / 2 then f
  else if 1 / 2 < r then f + 1
  else if f % 2 = 0 then f else f + 1

/-- Count `(filtered_df["Status"] == s).sum()`. -/
def statusCount (recs : List Ticket) (s : String) : Nat :=
  recs.countP fun t => t.status == s

/-- Count `filtered_df[filtered_df["Status"] == s].groupby("Category").size()`
looked up at one category (`.map(...).fillna(0)`). -/
def categoryStatusCount (recs : List Ticket) (c s : String) : Nat :=
  recs.countP fun t => t.category == c && t.status == s

/-- The distinct categories of the filtered set (`groupby("Category")` keys;
the groupby sorts its keys, but no verified property depends on the order of
this list, only on its members and multiplicities). -/
def categoryKeys (recs : List Ticket) : List String :=
  (recs.map Ticket.category).dedup

/-- Count `filtered_df.groupby("Category").size()` at one category. -/
def categoryCount (recs : List Ticket) (c : String) : Nat :=
  (recs.map Ticket.category).count c

/-- One row of the `cat` dataframe (lines 177-195): ticket count, exact
percentage, displayed integer percentage, closed and in-progress counts. -/
structure CategoryRow where
  category : String
  tickets : Nat
  exactPct : ℚ
  percentage : Int
  closedCount : Nat
  inProgressCount : Nat
deriving DecidableEq, Repr

/-- The aggregate numbers the dashboard tab displays.  `closurePct` and
`pendingPct` are `none` when the guard `total_tickets > 0` fails (the page
shows "No tickets available" instead of dividing), and `categories` is empty
then as well ("No category data available"). -/
structure AggregateReport where
  total : Nat
  openCount : Nat
  closedCount : Nat
  inProgressCount : Nat
  closurePct : Option Int
  pendingPct : Option Int
  categories : List CategoryRow
deriving DecidableEq, Repr

/-- Lines 122-148 of `dashboard.py` (KPIs, inflow vs closure) and 174-195
(category percentage view), with the two `total_tickets > 0` guards. -/
def aggregate (recs : List Ticket) : AggregateReport :=
  let total := recs.length
  let openC := statusCount recs "Open"
  let closedC := statusCount recs "Closed"
  let inProg := statusCount recs "In-Progress"
  if total > 0 then
    let closurePct := ⌊((closedC : ℚ) / (total : ℚ)) * 100⌋
    { total := total, openCount := openC, closedCount := closedC,
      inProgressCount := inProg,
      closurePct := some closurePct,
      pendingPct := some (100 - closurePct),
      categories := (categoryKeys recs).map fun c =>
        let cnt := categoryCount recs c
        let exact := ((cnt : ℚ) / (total : ℚ)) * 100
        { category := c, tickets := cnt, exactPct := exact,
          percentage := roundHalfEven exact,
          closedCount := categoryStatusCount recs c "Closed",
          inProgressCount := categoryStatusCount recs c "In-Progress" } }
  else
    { total := total, openCount := openC, closedCount := closedC,
      inProgressCount := inProg,
      closurePct := none, pendingPct := none, categories := [] }

/-- Sum of the displayed integer percentages over the category table. -/
def sumPercentages (rep : AggregateReport) : Int :=
  (rep.categories.map CategoryRow.percentage).sum

/-! ## Open-tickets SLA (`dashboard.py` lines 283-292) -/

/-- Column `(pd.Timestamp.today().normalize() - open_df["Request Date"]).dt.days`
for date-valued request dates: whole days between the two calendar dates. -/
def pendingDays (todayOrd reqOrd : Int) : Int :=
  todayOrd - reqOrd

/-- Constant `SLA_DAYS = 1`. -/
def SLA_DAYS : Int := 1

/-- Line 287-289: the `SLA Status` column. -/
def slaStatus (pending : Int) : String :=
  if pending > SLA_DAYS then "❌ Breached" else "✅ Within SLA"

/-- Line 290-292: the `SLA Breach Days` column. -/
def slaBreachDays (pending : Int) : Int :=
  max 0 (pending - SLA_DAYS)

/-! ## Concrete inputs used by the witness theorems -/

/-- A concrete stand-in for the pandas date parser, defined on the two rows of
the demonstration data (day-first slash format, as in the sheet). -/
def demoParse : String → Option Date := fun s =>
  if s = "10/06/2024" then some ⟨2024, 6, 10⟩
  else if s = "27/12/2023" then some ⟨2023, 12, 27⟩
  else none

/-- A row dated inside the current year 2024. -/
def demoRow2024 : RawRow := ⟨"10/06/2024", "Billing", "Open", "L1"⟩

/-- A row with a valid date in the prior year 2023 (inside the "Last Week"
window of 2024-01-02). -/
def demoRow2023 : RawRow := ⟨"27/12/2023", "Billing", "Open", "L1"⟩

/-- A row whose date cell does not parse. -/
def demoRowBad : RawRow := ⟨"not a date", "Billing", "Open", "L1"⟩

/-- Three tickets in three distinct categories: each is exactly 1/3 of the
total, the adversarial case for percentage rounding. -/
def demoThirds : List Ticket :=
  [⟨⟨2024, 6, 10⟩, "A", "Open", "L1"⟩,
   ⟨⟨2024, 6, 10⟩, "B", "Open", "L1"⟩,
   ⟨⟨2024, 6, 10⟩, "C", "Open", "L1"⟩]

/-- A single closed ticket, for the non-empty witness instantiations. -/
def demoOne : List Ticket := [⟨⟨2024, 6, 10⟩, "Billing", "Closed", "L1"⟩]

end PMP

-- sanity checks against CPython values
example : PMP.toOrdinal 2024 6 12 = 739049 := by decide
example : PMP.weekday (PMP.toOrdinal 2024 6 12) = 2 := by decide
example : PMP.isocalendar 2024 6 12 = (2024, 24, 3) := by decide
example : PMP.isocalendar 2024 1 3 = (2024, 1, 3) := by decide
example : PMP.isocalendar 2023 1 1 = (2022, 52, 7) := by decide
example : PMP.strptimeGWVU 2024 23 1 = some (PMP.toOrdinal 2024 6 3) := by decide
example : PMP.strptimeGWVU 2024 0 1 = some (PMP.toOrdinal 2023 12 25) := by decide
example : PMP.strptimeGWVU 500 9 1 = none := by decide
example : PMP.selectWindow "Last Week" 2024 6 12 =
    some (PMP.toOrdinal 2024 6 3, PMP.toOrdinal 2024 6 9) := by decide
example : PMP.selectWindow "This Week" 2024 6 12 =
    some (PMP.toOrdinal 2024 6 10, PMP.toOrdinal 2024 6 16) := by decide

/-! ## Helper lemmas -/

namespace PMP

theorem dropWhile_dropWhile (p : Char → Bool) (l : List Char) :
    (l.dropWhile p).dropWhile p = l.dropWhile p := by
  induction l with
  | nil => rfl
  | cons a t ih =>
      by_cases h : p a
      · simp [List.dropWhile_cons, h, ih]
      · simp [List.dropWhile_cons, h]

theorem dropWhile_append_self (p : Char → Bool) (l t : List Char)
    (h : (l ++ t).dropWhile p = l ++ t) : l.dropWhile p = l := by
  cases l with
  | nil => rfl
  | cons a l' =>
      have ha : ¬p a = true := by
        have := List.dropWhile_eq_self_iff.mp h
        simpa using this (by simp)
      rw [List.dropWhile_eq_self_iff]
      intro hl
      simpa using ha

theorem stripStr_idempotent (s : String) : stripStr (stripStr s) = stripStr s := by
  unfold stripStr
  set p := isSpaceChar with hp
  set A := s.data.dropWhile p with hA
  set B := A.reverse.dropWhile p with hB
  have hAfix : A.dropWhile p = A := by rw [hA]; exact dropWhile_dropWhile p s.data
  have hBfix : B.dropWhile p = B := by rw [hB]; exact dropWhile_dropWhile p A.reverse
  obtain ⟨u, hu⟩ : ∃ u, u ++ B = A.reverse := List.dropWhile_suffix p
  have hsplit : B.reverse ++ u.reverse = A := by
    have := congrArg List.reverse hu
    simpa using this
  have hBrev : B.reverse.dropWhile p = B.reverse :=
    dropWhile_append_self p B.reverse u.reverse (by rw [hsplit]; exact hAfix)
  simp only [String.data]
  rw [hBrev]
  simp [hBfix]


/-! ## Claim theorems: normalization, filtering, windows, SLA -/

/-- C5: the loader's per-row normalization is idempotent — `Category`,
`Status` and `L1/L2/L3` pass through untransformed (so normalizing an
already-normalized value returns it unchanged), and the `.str.strip()` applied
to the date string satisfies `strip (strip s) = strip s` for every string. -/
theorem normalizeRow_idempotent :
    (∀ r : RawRow, normalizeRow (normalizeRow r) = normalizeRow r) ∧
    (∀ r : RawRow, (normalizeRow r).category = r.category ∧
      (normalizeRow r).status = r.status ∧ (normalizeRow r).level = r.level) ∧
    (∀ s : String, stripStr (stripStr s) = stripStr s) := by
  refine ⟨fun r => ?_, fun r => ⟨rfl, rfl, rfl⟩, stripStr_idempotent⟩
  simp [normalizeRow, stripStr_idempotent]

/-- C6: the window filter keeps a record iff its calendar date lies between
the window bounds, both inclusive; records dated exactly on `start` or `end`
are kept. -/
theorem filterWindow_mem_iff (recs : List Ticket) (startO endO : Int)
    (t : Ticket) :
    t ∈ filterWindow recs startO endO ↔
      t ∈ recs ∧ startO ≤ t.requestDate.toOrd ∧ t.requestDate.toOrd ≤ endO := by
  simp [filterWindow, List.mem_filter, and_assoc]

/-- C7: for every reference date, the "This Week" window starts at
`today - weekday(today)` — a Monday — and ends six days later; for
2024-06-12 (a Wednesday) it is [2024-06-10, 2024-06-16]. -/
theorem thisWeek_monday_window :
    (∀ y m d : Int,
        selectWindow "This Week" y m d =
          some (toOrdinal y m d - weekday (toOrdinal y m d),
            toOrdinal y m d - weekday (toOrdinal y m d) + 6) ∧
        weekday (toOrdinal y m d - weekday (toOrdinal y m d)) = 0) ∧
    selectWindow "This Week" 2024 6 12 =
      some (toOrdinal 2024 6 10, toOrdinal 2024 6 16) := by
  refine ⟨fun y m d => ⟨rfl, ?_⟩, by decide⟩
  unfold weekday
  omega

/-- C3 (counterexample): the unrecognized selector "Bogus" does not fail; it
silently receives the "This Year" window (January 1st to today). -/
theorem invalid_view_counterexample :
    selectWindow "Bogus" 2024 6 12 = selectWindow "This Year" 2024 6 12 ∧
    selectWindow "Bogus" 2024 6 12 =
      some (toOrdinal 2024 1 1, toOrdinal 2024 6 12) := by
  decide

/-- C3 (amended): every view string other than "This Week", "Last Week" and
"This Month" — recognized or not — is given the window from January 1st of the
current year to today; no `InvalidView` error path exists. -/
theorem unrecognized_view_defaults_to_this_year (view : String) (y m d : Int)
    (h1 : view ≠ "This Week") (h2 : view ≠ "Last Week")
    (h3 : view ≠ "This Month") :
    selectWindow view y m d = some (toOrdinal y 1 1, toOrdinal y m d) := by
  simp only [selectWindow]
  rw [if_neg (by simpa using h1), if_neg (by simpa using h2),
    if_neg (by simpa using h3)]

/-- C3 (amended, witness): instantiated at the unrecognized selector "Bogus"
on 2024-06-12. -/
theorem unrecognized_view_defaults_to_this_year_witness :
    selectWindow "Bogus" 2024 6 12 =
      some (toOrdinal 2024 1 1, toOrdinal 2024 6 12) :=
  unrecognized_view_defaults_to_this_year "Bogus" 2024 6 12
    (by decide) (by decide) (by decide)

/-- C8: aggregating the empty filtered set yields total 0, all status counts
0, an empty category breakdown, and the explicit "no data" (`none`) closure
and pending percentages — no division is attempted. -/
theorem aggregate_empty :
    aggregate ([] : List Ticket) =
      { total := 0, openCount := 0, closedCount := 0, inProgressCount := 0,
        closurePct := none, pendingPct := none, categories := [] } := rfl

/-- C10: an open ticket is marked "❌ Breached" iff its pending days exceed
the threshold `SLA_DAYS = 1`, and its SLA breach days equal
`max 0 (pending - 1)`, hence are never negative. -/
theorem sla_breach_rule (todayOrd reqOrd : Int) :
    (slaStatus (pendingDays todayOrd reqOrd) = "❌ Breached" ↔
      pendingDays todayOrd reqOrd > 1) ∧
    slaBreachDays (pendingDays todayOrd reqOrd) =
      max 0 (pendingDays todayOrd reqOrd - 1) ∧
    0 ≤ slaBreachDays (pendingDays todayOrd reqOrd) := by
  refine ⟨?_, rfl, le_max_left 0 _⟩
  unfold slaStatus SLA_DAYS
  split_ifs with h
  · simp [h]
  · simp only [h, iff_false]
    decide

/-! ## "Last Week": the ISO-week computation equals the flat Monday offset -/

/-- The Monday starting ISO week 1 of `y` is a Monday and lies within three
days of January 1st. -/
theorem isoweek1monday_facts (y : Int) :
    (isoweek1monday y + 6) % 7 = 0 ∧
    daysBeforeYear y - 2 ≤ isoweek1monday y ∧
    isoweek1monday y ≤ daysBeforeYear y + 4 := by
  simp only [isoweek1monday, toOrdinal, daysBeforeMonth, daysBeforeMonthTable]
  norm_num
  split_ifs <;> omega

/-- Unfolded leap-year condition. -/
theorem isLeap_iff (y : Int) :
    isLeap y = true ↔ y % 4 = 0 ∧ (y % 100 ≠ 0 ∨ y % 400 = 0) := by
  simp [isLeap, Bool.and_eq_true, Bool.or_eq_true]

/-- A calendar year spans 366 days when leap, 365 otherwise, in terms of
`daysBeforeYear`. -/
theorem daysBeforeYear_succ (y : Int) :
    daysBeforeYear (y + 1) =
      daysBeforeYear y + (if isLeap y then 366 else 365) := by
  cases hL : isLeap y with
  | false =>
      have hc : ¬(y % 4 = 0 ∧ (y % 100 ≠ 0 ∨ y % 400 = 0)) := by
        rw [← isLeap_iff, hL]
        decide
      simp only [daysBeforeYear, hL, Bool.false_eq_true, if_false]
      omega
  | true =>
      have hc : y % 4 = 0 ∧ (y % 100 ≠ 0 ∨ y % 400 = 0) := (isLeap_iff y).mp hL
      simp only [daysBeforeYear, hL, if_true]
      omega

/-- A valid date of year `y` has its ordinal between January 1st of `y` and
December 31st of `y` (the day before January 1st of `y + 1`). -/
theorem ordinal_bounds (y m d : Int) (h : ValidDate y m d) :
    daysBeforeYear y + 1 ≤ toOrdinal y m d ∧
    toOrdinal y m d ≤ daysBeforeYear (y + 1) := by
  obtain ⟨-, -, hm1, hm2, hd1, hd2⟩ := h
  have hyl := daysBeforeYear_succ y
  interval_cases m <;>
    cases hL : isLeap y <;>
    simp only [daysInMonth, hL, if_true, if_false, reduceIte] at hd2 <;>
    simp only [hL, if_true, if_false] at hyl <;>
    simp only [toOrdinal, daysBeforeMonth, daysBeforeMonthTable, hL,
      reduceIte] <;>
    norm_num <;>
    omega

/-- The date built by `strptime("%G-W%V-%u")` for Monday of ISO week `w` of
a four-digit ISO year `Y` is the Monday of week 1 plus `7 * (w - 1)` days —
also for `w = 0`, which `_calc_julian_from_V` sends into the previous
December. -/
theorem strptimeGWVU_monday (Y w : Int) (hY1 : 1000 ≤ Y) (hY2 : Y ≤ 9999) :
    strptimeGWVU Y w 1 = some (isoweek1monday Y + 7 * (w - 1)) := by
  simp only [strptimeGWVU]
  rw [if_pos ⟨hY1, hY2⟩]
  refine congrArg some ?_
  simp only [calcJulianFromV, isoweek1monday, weekday,
    toOrdinal, daysBeforeMonth, daysBeforeMonthTable]
  norm_num
  split_ifs <;> dsimp only <;> omega

/-- The ISO year reported by `isocalendar` is within one of the calendar
year. -/
theorem isocalendar_year_range (y m d iy iw iday : Int)
    (hic : isocalendar y m d = (iy, iw, iday)) :
    y - 1 ≤ iy ∧ iy ≤ y + 1 := by
  simp only [isocalendar] at hic
  split_ifs at hic <;>
    simp only [Prod.mk.injEq] at hic <;>
    omega

/-- The invariant connecting `isocalendar` to the flat weekday offset: the
Monday of the ISO week reported for `(y, m, d)` is `ordinal - weekday`. -/
theorem isocalendar_monday (y m d iy iw iday : Int) (h : ValidDate y m d)
    (hic : isocalendar y m d = (iy, iw, iday)) :
    isoweek1monday iy + 7 * (iw - 1) =
      toOrdinal y m d - weekday (toOrdinal y m d) := by
  have h1 := isoweek1monday_facts y
  have h2 := isoweek1monday_facts (y - 1)
  have h3 := isoweek1monday_facts (y + 1)
  have hb := ordinal_bounds y m d h
  simp only [isocalendar] at hic
  split_ifs at hic with hA hB
  all_goals
    simp only [Prod.mk.injEq] at hic
    obtain ⟨e1, e2, -⟩ := hic
    subst e1
    subst e2
  · simp only [weekday]
    omega
  · obtain ⟨hB1, hB2⟩ := hB
    simp only [weekday]
    omega
  · simp only [weekday]
    omega

/-- C1: for every valid reference date whose year keeps the ISO year within
four digits (1001..9998 — every date the dashboard's clock can supply), the
"Last Week" window computed by the code — via `isocalendar` and
`strptime("%G-W%V-%u")` with `iso.week - 1` — equals the flat Monday-offset
window: start is the Monday of the current week minus 7 days, end is start
plus 6 days.  The ISO-week detour is extensionally the flat offset; outside
the four-digit range `strptime` raises instead (`strptimeGWVU` is `none`). -/
theorem lastWeek_flat_monday_offset (y m d : Int) (h : ValidDate y m d)
    (hy1 : 1001 ≤ y) (hy2 : y ≤ 9998) :
    selectWindow "Last Week" y m d =
      some (toOrdinal y m d - weekday (toOrdinal y m d) - 7,
        toOrdinal y m d - weekday (toOrdinal y m d) - 7 + 6) := by
  rcases hic : isocalendar y m d with ⟨iy, iwd⟩
  rcases iwd with ⟨iw, iday⟩
  have hmon := isocalendar_monday y m d iy iw iday h hic
  have hyr := isocalendar_year_range y m d iy iw iday hic
  simp only [selectWindow, hic]
  rw [if_neg (by decide), if_pos (by decide)]
  rw [strptimeGWVU_monday iy (iw - 1) (by omega) (by omega)]
  simp only [Option.map_some', Option.some.injEq, Prod.mk.injEq]
  constructor <;> omega

/-- C1 (witness): for today = 2024-06-12 the "Last Week" window is
[2024-06-03, 2024-06-09]. -/
theorem lastWeek_flat_monday_offset_witness :
    ValidDate 2024 6 12 ∧
    selectWindow "Last Week" 2024 6 12 =
      some (toOrdinal 2024 6 3, toOrdinal 2024 6 9) := by
  refine ⟨by decide, ?_⟩
  rw [lastWeek_flat_monday_offset 2024 6 12 (by decide) (by decide) (by decide)]
  decide

/-! ## Loader theorems -/

/-- Provenance of loaded tickets: every ticket the loader returns is dated in
the load-time year and its date is exactly the parse of its own row's
(stripped) date cell, with the text fields copied verbatim. -/
theorem load_spec (parse : String → Option Date) (yr : Int)
    (rows : List RawRow) :
    ∀ t ∈ load_dashboard_data parse yr rows,
      t.requestDate.year = yr ∧
      ∃ r ∈ rows, parse (stripStr r.requestDate) = some t.requestDate ∧
        t.category = r.category ∧ t.status = r.status ∧ t.level = r.level := by
  intro t ht
  simp only [load_dashboard_data, List.mem_map] at ht
  obtain ⟨p, hp, rfl⟩ := ht
  simp only [filterCurrentYear, List.mem_filter, beq_iff_eq] at hp
  obtain ⟨hp1, hyr⟩ := hp
  simp only [dropNaDates, List.mem_filterMap] at hp1
  obtain ⟨q, hq, hg⟩ := hp1
  simp only [parseColumn, List.mem_map] at hq
  obtain ⟨r, hr, rfl⟩ := hq
  simp only [Option.map_eq_some'] at hg
  obtain ⟨dt, hdt, rfl⟩ := hg
  exact ⟨hyr, r, hr, by simpa [normalizeRow] using hdt, rfl, rfl, rfl⟩

/-- C4: a row whose date cell does not parse is dropped without aborting the
rest of the batch; every loaded ticket's date comes from parsing its own
row's (stripped) date cell — never defaulted — and in the `app.py` variant the
unparsed (`NaT`) rows are excluded by the weekly window filter, so no record
entering aggregation lacks a valid parsed date. -/
theorem loader_drops_invalid_dates (parse : String → Option Date) (yr : Int)
    (r : RawRow) (pre post : List RawRow)
    (h : parse (stripStr r.requestDate) = none) :
    load_dashboard_data parse yr (pre ++ r :: post) =
      load_dashboard_data parse yr (pre ++ post) ∧
    (∀ rows, ∀ t ∈ load_dashboard_data parse yr rows,
        ∃ r2 ∈ rows, parse (stripStr r2.requestDate) = some t.requestDate ∧
          t.category = r2.category ∧ t.status = r2.status ∧
          t.level = r2.level) ∧
    (∀ (orows : List (Option Int)) (s e : Int),
        (none : Option Int) ∉ appWeeklyFilter orows s e) := by
  refine ⟨?_, ?_, ?_⟩
  · simp [load_dashboard_data, parseColumn, dropNaDates, normalizeRow, h]
  · intro rows t ht
    obtain ⟨-, r2, hr2, hparse, hc, hs, hl⟩ := load_spec parse yr rows t ht
    exact ⟨r2, hr2, hparse, hc, hs, hl⟩
  · intro orows s e hmem
    simp only [appWeeklyFilter, List.mem_filter] at hmem
    exact absurd hmem.2 (by simp)

/-- C4 (witness): the unparsable demonstration row is dropped while the batch
continues with the remaining row. -/
theorem loader_drops_invalid_dates_witness :
    demoParse (stripStr demoRowBad.requestDate) = none ∧
    load_dashboard_data demoParse 2024 [demoRow2024, demoRowBad] =
      load_dashboard_data demoParse 2024 [demoRow2024] :=
  ⟨by decide,
   (loader_drops_invalid_dates demoParse 2024 demoRowBad [demoRow2024] []
     (by decide)).1⟩

/-- C9: every ticket the loader returns is dated in the load-time year, and a
row with a valid parsed date in any other year is silently dropped — so a
window overlapping a year boundary can never see prior-year tickets. -/
theorem loader_restricts_to_current_year (parse : String → Option Date)
    (yr : Int) :
    (∀ rows t, t ∈ load_dashboard_data parse yr rows →
        t.requestDate.year = yr) ∧
    (∀ (r : RawRow) (pre post : List RawRow) (dt : Date),
        parse (stripStr r.requestDate) = some dt → dt.year ≠ yr →
        load_dashboard_data parse yr (pre ++ r :: post) =
          load_dashboard_data parse yr (pre ++ post)) := by
  constructor
  · intro rows t ht
    exact (load_spec parse yr rows t ht).1
  · intro r pre post dt hparse hne
    simp [load_dashboard_data, parseColumn, dropNaDates, filterCurrentYear,
      normalizeRow, hparse, hne]

/-- C9 (witness): the 2023-12-27 row — a valid date inside the "Last Week"
window of 2024-01-02 — is dropped entirely when the load-time year is 2024. -/
theorem loader_restricts_to_current_year_witness :
    load_dashboard_data demoParse 2024 [demoRow2023] = [] := by
  have h := (loader_restricts_to_current_year demoParse 2024).2 demoRow2023
    [] [] ⟨2023, 12, 27⟩ (by decide) (by decide)
  rw [show [demoRow2023] = [] ++ demoRow2023 :: [] from rfl, h]
  rfl

/-! ## Category percentages: plain half-even rounding, not largest remainder -/

/-- Rounding half to even never moves a value by more than one half. -/
theorem roundHalfEven_close (q : ℚ) : |((roundHalfEven q : ℚ)) - q| ≤ 1 / 2 := by
  have h1 : (⌊q⌋ : ℚ) ≤ q := Int.floor_le q
  have h2 : q < ⌊q⌋ + 1 := Int.lt_floor_add_one q
  simp only [roundHalfEven]
  split_ifs with ha hb hc <;> rw [abs_le] <;> push_cast <;>
    constructor <;> linarith

/-- Computation rule: a rational within the lower half-interval of `n` rounds
to `n`. -/
theorem roundHalfEven_eq_of_lt (q : ℚ) (n : Int) (h1 : (n : ℚ) ≤ q)
    (h2 : q < n + 1 / 2) : roundHalfEven q = n := by
  have hf : ⌊q⌋ = n := Int.floor_eq_iff.mpr ⟨h1, by linarith⟩
  simp only [roundHalfEven]
  rw [hf, if_pos (by linarith)]

/-- Summing integer approximations that are each within one half of their
exact values keeps the total within half the list length. -/
theorem sum_map_rounding_close {α : Type} (l : List α) (f : α → Int)
    (g : α → ℚ) (h : ∀ x ∈ l, |((f x : ℚ)) - g x| ≤ 1 / 2) :
    |(((l.map f).sum : Int) : ℚ) - (l.map g).sum| ≤ (l.length : ℚ) / 2 := by
  induction l with
  | nil => simp
  | cons a t ih =>
      have hat := h a (by simp)
      have ht := ih fun x hx => h x (by simp [hx])
      simp only [List.map_cons, List.sum_cons, List.length_cons]
      have key : ((((f a + (t.map f).sum : Int)) : ℚ) - (g a + (t.map g).sum))
          = (((f a : Int) : ℚ) - g a)
            + ((((t.map f).sum : Int) : ℚ) - (t.map g).sum) := by
        push_cast
        ring
      rw [key]
      have hb : |(((f a : Int) : ℚ) - g a)
              + ((((t.map f).sum : Int) : ℚ) - (t.map g).sum)|
          ≤ 1 / 2 + (t.length : ℚ) / 2 :=
        le_trans (abs_add _ _) (add_le_add hat ht)
      push_cast
      push_cast at hb
      linarith

/-- Factoring a constant out of a mapped sum. -/
theorem sum_map_mul_const {α : Type} (l : List α) (f : α → ℚ) (k : ℚ) :
    (l.map fun x => f x * k).sum = (l.map f).sum * k := by
  induction l with
  | nil => simp
  | cons a t ih => simp [ih, add_mul]

/-- The exact fractional percentages of the category table sum to 100 when
the filtered set is non-empty. -/
theorem sum_exact_pcts (recs : List Ticket) (h : recs ≠ []) :
    ((categoryKeys recs).map
      (fun c => ((categoryCount recs c : ℚ) / (recs.length : ℚ)) * 100)).sum
      = 100 := by
  have hT : ((recs.length : ℚ)) ≠ 0 := by
    have : recs.length ≠ 0 := fun h0 => h (List.length_eq_zero.mp h0)
    exact_mod_cast this
  have hcnt : ((recs.map Ticket.category).dedup.map
      fun c => (recs.map Ticket.category).count c).sum
      = (recs.map Ticket.category).length :=
    List.sum_map_count_dedup_eq_length _
  have hcastsum : (((recs.map Ticket.category).dedup.map
      fun c => ((recs.map Ticket.category).count c : ℚ)).sum)
      = ((recs.map Ticket.category).length : ℚ) := by
    rw [← hcnt, Nat.cast_list_sum, List.map_map]
    rfl
  have hfun : (fun c => ((categoryCount recs c : ℚ) / (recs.length : ℚ)) * 100)
      = fun c => ((recs.map Ticket.category).count c : ℚ)
          * (100 / (recs.length : ℚ)) := by
    funext c
    unfold categoryCount
    ring
  rw [hfun, sum_map_mul_const]
  unfold categoryKeys
  rw [hcastsum, List.length_map]
  field_simp

/-- Projection of `aggregate`: the total is always the filtered length. -/
theorem aggregate_total (recs : List Ticket) :
    (aggregate recs).total = recs.length := by
  simp only [aggregate]
  split_ifs <;> rfl

/-- Projection of `aggregate`: the category table in the non-empty case. -/
theorem aggregate_categories (recs : List Ticket) (h : 0 < recs.length) :
    (aggregate recs).categories = (categoryKeys recs).map (fun c =>
      { category := c, tickets := categoryCount recs c,
        exactPct := ((categoryCount recs c : ℚ) / (recs.length : ℚ)) * 100,
        percentage :=
          roundHalfEven (((categoryCount recs c : ℚ) / (recs.length : ℚ)) * 100),
        closedCount := categoryStatusCount recs c "Closed",
        inProgressCount := categoryStatusCount recs c "In-Progress" }) := by
  simp only [aggregate]
  rw [if_pos h]

/-- C2 (counterexample): three categories of one ticket each — every exact
percentage is 100/3 — produce displayed percentages 33, 33, 33, summing to
99, not 100: the code rounds each percentage independently
(`round(0)`, half to even) and never redistributes the remainder. -/
theorem percentages_sum_counterexample :
    (aggregate demoThirds).total > 0 ∧
    sumPercentages (aggregate demoThirds) = 99 ∧
    sumPercentages (aggregate demoThirds) ≠ 100 := by
  have h3 : 0 < demoThirds.length := by decide
  have hkeys : categoryKeys demoThirds = ["A", "B", "C"] := by decide
  have hA : categoryCount demoThirds "A" = 1 := by decide
  have hB : categoryCount demoThirds "B" = 1 := by decide
  have hC : categoryCount demoThirds "C" = 1 := by decide
  have hlen : demoThirds.length = 3 := by decide
  have h33 : roundHalfEven (((1 : ℚ) / (3 : ℚ)) * 100) = 33 :=
    roundHalfEven_eq_of_lt _ 33 (by norm_num) (by norm_num)
  have hsum : sumPercentages (aggregate demoThirds) = 99 := by
    rw [sumPercentages, aggregate_categories demoThirds h3, hkeys,
      List.map_map]
    simp only [List.map_cons, List.map_nil, List.sum_cons, List.sum_nil,
      Function.comp_apply, hA, hB, hC, hlen]
    push_cast
    rw [h33]
    norm_num
  refine ⟨?_, hsum, by rw [hsum]; decide⟩
  rw [aggregate_total]
  exact h3

/-- C2 (amended): when the filtered set is non-empty, each listed category's
integer percentage is the half-to-even rounding of its exact fractional
percentage `count / total * 100` — plain rounding, not largest-remainder — and
the percentages need not sum to 100; they are only guaranteed to sum within
half a point per category of 100. -/
theorem category_percentages_plain_rounding (recs : List Ticket)
    (h : recs ≠ []) :
    (∀ row ∈ (aggregate recs).categories,
        row.percentage = roundHalfEven row.exactPct ∧
        row.exactPct =
          ((row.tickets : ℚ) / (((aggregate recs).total : ℚ))) * 100) ∧
    2 * |sumPercentages (aggregate recs) - 100| ≤
      ((aggregate recs).categories.length : Int) := by
  have hlen : 0 < recs.length := List.length_pos.mpr h
  have hcats := aggregate_categories recs hlen
  have htot := aggregate_total recs
  constructor
  · intro row hrow
    rw [hcats] at hrow
    simp only [List.mem_map] at hrow
    obtain ⟨c, -, rfl⟩ := hrow
    exact ⟨rfl, by rw [htot]⟩
  · have happrox := sum_map_rounding_close (categoryKeys recs)
      (fun c =>
        roundHalfEven (((categoryCount recs c : ℚ) / (recs.length : ℚ)) * 100))
      (fun c => ((categoryCount recs c : ℚ) / (recs.length : ℚ)) * 100)
      (fun x _ => roundHalfEven_close _)
    rw [sum_exact_pcts recs h] at happrox
    have hS : sumPercentages (aggregate recs) = ((categoryKeys recs).map
        (fun c => roundHalfEven
          (((categoryCount recs c : ℚ) / (recs.length : ℚ)) * 100))).sum := by
      rw [sumPercentages, hcats, List.map_map]
      rfl
    have hn : (aggregate recs).categories.length = (categoryKeys recs).length := by
      rw [hcats, List.length_map]
    rw [hS, hn]
    set S : Int := ((categoryKeys recs).map
      (fun c => roundHalfEven
        (((categoryCount recs c : ℚ) / (recs.length : ℚ)) * 100))).sum with hSdef
    have hq : |(S : ℚ) - 100| ≤ ((categoryKeys recs).length : ℚ) / 2 := happrox
    have hq2 : 2 * |(S : ℚ) - 100| ≤ ((categoryKeys recs).length : ℚ) := by
      linarith [hq]
    have hcast : ((2 * |S - 100| : Int) : ℚ) = 2 * |(S : ℚ) - 100| := by
      push_cast
      ring
    exact_mod_cast hcast ▸ hq2

/-- C2 (amended, witness): instantiated at the one-ticket list. -/
theorem category_percentages_plain_rounding_witness :
    2 * |sumPercentages (aggregate demoOne) - 100| ≤
      ((aggregate demoOne).categories.length : Int) :=
  (category_percentages_plain_rounding demoOne (by decide)).2

end PMP
